import Mathlib

set_option maxRecDepth 4000

/-!
Shallow embedding of the initcn build-time registry assembly pipeline.

The definitions below translate, function by function, the TypeScript source
of the registry build scripts:

* `src/scripts/builders/base-builder.ts` — `BaseInfraBuilder` with
  `matchesPattern`, `applyMapping`, `getTargetPath`, `detectFramework`
  and the `defaultTargetMappings` table;
* `src/scripts/builders/registry.ts` — `getBuilder`;
* `src/scripts/builders/shared.ts` — `ConfigJson`, `getFileType`,
  `toRegistryUrl`;
* the build script (`validateConfig`, `generateRegistry`'s
  registry-dependency linking).

JavaScript strings are modelled as Lean `String`s (the sources only handle
ASCII paths and names); the JS string operations used by the code
(`replace`, `includes`, `startsWith`, `endsWith`, `split`, `join` and the
few concrete regular expressions that appear literally in the source) are
given explicit executable models below.  Recursions are structural (over an
explicit fuel bounded by the input length where needed) so that every
definition evaluates inside the kernel.
-/

namespace Initcn

/-- Substring containment on character lists (an empty needle is always
contained, as in JS). -/
def isInfixOfL (sub : List Char) : List Char → Bool
  | [] => sub.isEmpty
  | c :: cs => sub.isPrefixOf (c :: cs) || isInfixOfL sub cs

/-- Model of JS `s.includes(sub)`: substring containment. -/
def jsIncludes (s sub : String) : Bool :=
  isInfixOfL sub.data s.data

/-- Model of JS `s.startsWith(pre)`. -/
def jsStartsWith (s pre : String) : Bool :=
  pre.data.isPrefixOf s.data

/-- Model of JS `s.endsWith(suf)`. -/
def jsEndsWith (s suf : String) : Bool :=
  suf.data.isSuffixOf s.data

/-- Replace the first occurrence of `pat` by `repl` (JS
`String.prototype.replace` with a string pattern).  With an empty pattern
the replacement is inserted in front, as in JS. -/
def replaceFirstL (pat repl : List Char) : List Char → List Char
  | [] => if pat = [] then repl else []
  | c :: cs =>
    if pat.isPrefixOf (c :: cs) then repl ++ (c :: cs).drop pat.length
    else c :: replaceFirstL pat repl cs

/-- Model of JS `s.replace(pat, repl)` (string pattern: first occurrence only). -/
def jsReplaceFirst (s pat repl : String) : String :=
  String.mk (replaceFirstL pat.data repl.data s.data)

/-- Replace every (non-overlapping, left-to-right) occurrence of `pat` by
`repl`, as a JS global regex replace over a literal pattern does.  The
`fuel` argument makes the recursion structural; `replaceAllL` instantiates
it with the length of the string, which always suffices because every step
consumes at least one character. -/
def replaceAllLAux (pat repl : List Char) : Nat → List Char → List Char
  | _, [] => []
  | 0, l => l
  | fuel + 1, c :: cs =>
    if pat ≠ [] ∧ pat.isPrefixOf (c :: cs) then
      repl ++ replaceAllLAux pat repl fuel (cs.drop (pat.length - 1))
    else c :: replaceAllLAux pat repl fuel cs

/-- Model of a JS global replace of the literal pattern `pat` by `repl`. -/
def jsReplaceAll (s pat repl : String) : String :=
  String.mk (replaceAllLAux pat.data repl.data s.data.length s.data)

/-- Split on a single-character separator, JS `s.split(sep)` semantics
(`"".split(sep) = [""]`, empty segments kept). -/
def splitOnCharL (sep : Char) : List Char → List (List Char)
  | [] => [[]]
  | c :: cs =>
    let rest := splitOnCharL sep cs
    if c == sep then [] :: rest
    else
      match rest with
      | [] => [[c]]
      | r :: rs => (c :: r) :: rs

/-- Model of JS `s.split(sep)` for a one-character separator. -/
def jsSplitChar (s : String) (sep : Char) : List String :=
  (splitOnCharL sep s.data).map String.mk

/-- Model of JS `Array.prototype.join(sep)`. -/
def joinSep (sep : String) : List String → String
  | [] => ""
  | [x] => x
  | x :: y :: xs => x ++ sep ++ joinSep sep (y :: xs)

/-- Full-string test of the compiled regex of the source's embedded
wildcard branch (`"^" + escaped + "$"`), for patterns built from
characters that are regex-literal once dots are escaped: each such
character matches itself and `*` becomes `.*`.  A JS regex `.` does not
match a newline, hence the `'\n'` guard.  On patterns containing other
regex metacharacters this boolean model treats them literally; whether
such a pattern even compiles (the source's `new RegExp` throws a
`SyntaxError` otherwise) is modelled separately by `regexSourceValid`.
`fuel` makes the recursion structural; `pattern.length + path.length`
steps always suffice. -/
def globMatchAux : Nat → List Char → List Char → Bool
  | _, [], [] => true
  | _, [], _ :: _ => false
  | 0, _ :: _, _ => false
  | fuel + 1, '*' :: ps, s =>
    globMatchAux fuel ps s ||
      (match s with
       | [] => false
       | c :: s1 => c != '\n' && globMatchAux fuel ('*' :: ps) s1)
  | _ + 1, _ :: _, [] => false
  | fuel + 1, p :: ps, c :: cs => p == c && globMatchAux fuel ps cs

/-- Glob match of a path against a pattern (see `globMatchAux`). -/
def globMatch (pattern path : List Char) : Bool :=
  globMatchAux (pattern.length + path.length) pattern path

/-- Leftmost match of the source's end-anchored regex `/\*(\.[^/]+)$/`
against the characters of a string: returns the part before the match and
the first capture group (`'.'` followed by the non-empty slash-free rest).
The same span is what `/\*\.[^\/]+$/` (the replace form used one line
later in the source) matches. -/
def starExtMatch : List Char → Option (List Char × List Char)
  | [] => none
  | '*' :: '.' :: rest =>
    if rest.length > 0 && rest.all (fun c => c != '/') then
      some ([], '.' :: rest)
    else
      (starExtMatch ('.' :: rest)).map (fun pg => ('*' :: pg.1, pg.2))
  | c :: cs => (starExtMatch cs).map (fun pg => (c :: pg.1, pg.2))

/-- Model of `target.match(/\*(\.[^/]+)$/)?.[1] || ""` in `applyMapping`. -/
def starExtGroup (target : String) : String :=
  match starExtMatch target.data with
  | some pg => String.mk pg.2
  | none => ""

/-- Model of `result.replace(/\*\.[^/]+$/, repl)` in `applyMapping`. -/
def replaceStarExtEnd (s repl : String) : String :=
  match starExtMatch s.data with
  | some pg => String.mk pg.1 ++ repl
  | none => s

/-- Model of `filename.replace(/\.[^.]+$/, "")` in `applyMapping`: strip the
last dot-extension when it exists and is non-empty. -/
def stripLastExt (filename : String) : String :=
  let parts := jsSplitChar filename '.'
  if 2 ≤ parts.length ∧ parts.getLastD "" ≠ "" then
    joinSep "." parts.dropLast
  else filename

/-- Embedding of the boolean result of `BaseInfraBuilder.matchesPattern`
(base-builder.ts) on patterns whose compiled regex is syntactically valid.
The branch structure is the source's: exact match, then the `"dir/*"`
prefix branch (whose boolean is returned directly, without falling
through), then the embedded-wildcard regex branch, then the (dead, since
`"*"` contains `*`) literal catch-all branch.  The regex branch of the
source can also throw a `SyntaxError` from `new RegExp` on patterns whose
compiled source is invalid; that path is modelled below by
`matchesPatternE` and `regexSourceValid`. -/
def matchesPattern (path pattern : String) : Bool :=
  let normalizedPath := jsReplaceAll path "\\" "/"
  if normalizedPath == pattern then true
  else if jsEndsWith pattern "/*" then
    jsStartsWith normalizedPath (String.mk pattern.data.dropLast.dropLast ++ "/")
  else if jsIncludes pattern "*" then
    globMatch pattern.data normalizedPath.data
  else if pattern == "*" then true
  else false

/-- Embedding of `BaseInfraBuilder.applyMapping` (base-builder.ts).  The
four sequential rewriting steps of the source are kept in order:
`{feature}` substitution, the `"dir/*"`-pattern suffix substitution, the
`*.`-in-target filename/extension rewrite, and the final
embedded-wildcard pass-through that overwrites the result with the
original source path. -/
def applyMapping (sourcePath pattern target featureName : String) : String :=
  let normalizedPath := jsReplaceAll sourcePath "\\" "/"
  let result0 := jsReplaceAll target "{feature}" featureName
  let result1 :=
    if jsEndsWith pattern "/*" && jsIncludes target "*" then
      let pre := String.mk pattern.data.dropLast.dropLast
      let suffix := String.mk (normalizedPath.data.drop (pre.length + 1))
      jsReplaceFirst result0 "*" suffix
    else result0
  let result2 :=
    if jsIncludes target "*." then
      let filename := (jsSplitChar sourcePath '/').getLastD ""
      if filename != "" then
        let baseName := stripLastExt filename
        let targetExt := starExtGroup target
        replaceStarExtEnd result1 (baseName ++ targetExt)
      else result1
    else result1
  if jsIncludes pattern "*" && !(jsEndsWith pattern "/*") && jsIncludes target "*" then
    sourcePath
  else result2

/-- Embedding of the `capabilities` object of `ConfigJson` (shared.ts).
The TS `OrmType`/`FrameworkType` unions are string types at runtime (the
descriptor is parsed from untrusted JSON, which is why `validateConfig`
checks the values), so the fields hold plain strings here. -/
structure Capabilities where
  orm : Option (List String)
  framework : Option (List String)
deriving Repr, DecidableEq

/-- Embedding of the `requires` object of `ConfigJson` (shared.ts). -/
structure RequiresSpec where
  orm : Option String
  framework : Option String
deriving Repr, DecidableEq

/-- Embedding of the `ConfigJson` interface (shared.ts).  Optional TS
fields become `Option`s; the required string fields are also `Option
String` because `validateConfig` receives a raw parsed object in which
they may be absent (or empty, which is falsy in JS — see `truthyStr`).
`targetMappings` is the `framework → (pattern → targetTemplate)` object,
kept as insertion-ordered association lists. -/
structure ConfigJson where
  name : Option String
  type : Option String
  title : Option String
  description : Option String
  dependencies : Option (List String)
  devDependencies : Option (List String)
  registryDependencies : Option (List String)
  capabilities : Option Capabilities
  requiresSpec : Option RequiresSpec
  targetMappings : Option (List (String × List (String × String)))
deriving Repr, DecidableEq

/-- JS truthiness of an optional string field: absent (`undefined`) and
`""` are falsy, every other string is truthy. -/
def truthyStr : Option String → Bool
  | none => false
  | some s => s != ""

/-- Embedding of `BaseInfraBuilder.defaultTargetMappings`
(base-builder.ts), as the insertion-ordered list that
`Object.entries` yields for that record literal. -/
def defaultTargetMappings : List (String × String) :=
  [(".env.example.*", ".env.example.*"),
   ("api/*", "app/api/*"),
   ("app/*", "app/*"),
   ("components/*", "components/*"),
   ("actions/*", "app/actions/*"),
   ("server/*", "lib/server/{feature}/*"),
   ("client/*", "lib/client/*"),
   ("emails/*", "emails/*"),
   ("locales/*", "locales/*"),
   ("middleware.ts", "middleware.ts"),
   ("db.ts", "lib/server/db.ts"),
   ("mail.ts", "lib/server/mail.ts"),
   ("*", "lib/server/{feature}/*")]

/-- Embedding of a concrete `BaseInfraBuilder` subclass: its
`getFeatureName()` result and its (possibly overridden)
`defaultTargetMappings` table. -/
structure BaseInfraBuilder where
  featureName : String
  targetMappings : List (String × String)
deriving Repr

/-- Embedding of `BaseInfraBuilder.detectFramework` (base-builder.ts):
`config?.capabilities?.framework || ["nextjs"]`, then
`frameworks[0] === "*" ? "nextjs" : frameworks[0]`.  A present-but-empty
`framework` array is truthy in JS, so `frameworks[0]` is then
`undefined`, which the subsequent property access coerces to the string
key `"undefined"`; the empty-list branch returns that string. -/
def detectFramework (config : Option ConfigJson) : String :=
  let frameworks : List String :=
    match config with
    | some c =>
      match c.capabilities with
      | some caps =>
        match caps.framework with
        | some fws => fws
        | none => ["nextjs"]
      | none => ["nextjs"]
    | none => ["nextjs"]
  match frameworks with
  | [] => "undefined"
  | f :: _ => if f == "*" then "nextjs" else f

/-- JS object key lookup on an insertion-ordered association list
(`config.targetMappings[framework]`). -/
def lookupMappings (framework : String) :
    List (String × List (String × String)) → Option (List (String × String))
  | [] => none
  | (k, tbl) :: rest =>
    if k == framework then some tbl else lookupMappings framework rest

/-- Mapping table actually used by `getTargetPath`: the descriptor's
framework-specific override table when present, the builder's own table
otherwise (`customMappings || this.defaultTargetMappings`). -/
def effectiveMappings (b : BaseInfraBuilder) (config : Option ConfigJson) :
    List (String × String) :=
  let framework := detectFramework config
  let customMappings :=
    match config with
    | some c =>
      match c.targetMappings with
      | some tm => lookupMappings framework tm
      | none => none
    | none => none
  match customMappings with
  | some m => m
  | none => b.targetMappings

/-- Body of the pattern-matching loop of `BaseInfraBuilder.getTargetPath`:
first table entry (in declaration order) whose pattern matches wins, and
the loop's fallback return value applies when nothing matches. -/
def resolveMappings (relativePath featureName : String) :
    List (String × String) → String
  | [] => "lib/server/" ++ featureName ++ "/" ++ relativePath
  | (pattern, target) :: rest =>
    if matchesPattern relativePath pattern then
      applyMapping relativePath pattern target featureName
    else resolveMappings relativePath featureName rest

/-- Model of node's `relative(sourceDir, filePath)` for the only shape the
pipeline produces (every walked file path extends its feature directory
with a `/`-separated suffix). -/
def relativeTo (sourceDir filePath : String) : String :=
  if jsStartsWith filePath (sourceDir ++ "/") then
    String.mk (filePath.data.drop (sourceDir.length + 1))
  else filePath

/-- Embedding of `BaseInfraBuilder.getTargetPath` (base-builder.ts).  The
`registryName` parameter is unused there, as in the source. -/
def getTargetPath (b : BaseInfraBuilder)
    (filePath sourceDir _registryName : String)
    (config : Option ConfigJson) : String :=
  resolveMappings (relativeTo sourceDir filePath) b.featureName
    (effectiveMappings b config)

/-- Embedding of `getFileType` (shared.ts): role classification from the
relative path's leading segment. -/
def getFileType (filePath sourceDir : String) : String :=
  let relativePath := relativeTo sourceDir filePath
  if jsStartsWith relativePath "components/" || jsStartsWith relativePath "emails/" then
    "registry:block"
  else if jsStartsWith relativePath "app/" then
    "registry:page"
  else
    "registry:lib"

/-- Required descriptor fields checked by `validateConfig`. -/
def requiredFields : List String := ["name", "type", "title", "description"]

/-- Dynamic field access `config[field]` for the four required fields. -/
def configField (c : ConfigJson) (f : String) : Option String :=
  if f == "name" then c.name
  else if f == "type" then c.type
  else if f == "title" then c.title
  else if f == "description" then c.description
  else none

/-- Missing-field computation of `validateConfig`:
`required.filter((field) => !config[field])`. -/
def missingRequired (c : ConfigJson) : List String :=
  requiredFields.filter (fun f => !(truthyStr (configField c f)))

/-- Valid ORM values of `validateConfig` (build script). -/
def validOrms : List String := ["prisma", "drizzle", "typeorm", "none", "*"]

/-- Valid framework values of `validateConfig` (build script).  Note that
the list omits `"tanstack-start"`, although the `FrameworkType` union in
shared.ts declares it and the tanstack-start builder matches on it. -/
def validFrameworks : List String := ["nextjs", "vite", "remix", "astro", "*"]

/-- Values of the `FrameworkType` union type declared in shared.ts. -/
def frameworkTypeValues : List String :=
  ["nextjs", "vite", "tanstack-start", "remix", "astro", "*"]

/-- Errors thrown by `validateConfig`, kept structured; `renderValidationError`
reproduces the thrown message strings. -/
inductive ValidationError where
  | missingFields (configPath : String) (fields : List String)
  | invalidOrms (configPath : String) (invalid : List String)
  | invalidFrameworks (configPath : String) (invalid : List String)
deriving Repr, DecidableEq

/-- Message strings of the three `throw new Error(...)` sites of
`validateConfig`. -/
def renderValidationError : ValidationError → String
  | ValidationError.missingFields p fs =>
    "Invalid config.json at " ++ p ++ ": missing required fields: " ++ joinSep ", " fs
  | ValidationError.invalidOrms p inv =>
    "Invalid ORM types in " ++ p ++ ": " ++ joinSep ", " inv ++ ". " ++
      "Valid: " ++ joinSep ", " validOrms
  | ValidationError.invalidFrameworks p inv =>
    "Invalid framework types in " ++ p ++ ": " ++ joinSep ", " inv ++ ". " ++
      "Valid: " ++ joinSep ", " validFrameworks

/-- Embedding of `validateConfig` (build script).  A thrown `Error` is an
`Except.error`; the sequential structure of the source (missing-field
check first, then the ORM check, then the framework check, each throwing
immediately) is preserved. -/
def validateConfig (config : ConfigJson) (configPath : String) :
    Except ValidationError Unit :=
  let missing := missingRequired config
  if missing.length > 0 then
    Except.error (ValidationError.missingFields configPath missing)
  else
    match config.capabilities with
    | none => Except.ok ()
    | some caps =>
      let ormCheck : Except ValidationError Unit :=
        match caps.orm with
        | none => Except.ok ()
        | some orms =>
          let invalid := orms.filter (fun o => !(validOrms.contains o))
          if invalid.length > 0 then
            Except.error (ValidationError.invalidOrms configPath invalid)
          else Except.ok ()
      match ormCheck with
      | Except.error e => Except.error e
      | Except.ok _ =>
        match caps.framework with
        | none => Except.ok ()
        | some fws =>
          let invalid := fws.filter (fun fw => !(validFrameworks.contains fw))
          if invalid.length > 0 then
            Except.error (ValidationError.invalidFrameworks configPath invalid)
          else Except.ok ()

/-- Embedding of a registered builder as `getBuilder` (registry.ts) sees
it: its class name (`b.constructor.name`, used in the failure message) and
its `canHandle` predicate. -/
structure InfraBuilder where
  ctorName : String
  canHandle : String → Option ConfigJson → Bool

/-- Embedding of `getBuilder` (registry.ts): `builders.find(...)`, throwing
when no builder accepts the descriptor. -/
def getBuilder (registryName : String) (config : ConfigJson)
    (builders : List InfraBuilder) : Except String InfraBuilder :=
  match builders.find? (fun b => b.canHandle registryName (some config)) with
  | some b => Except.ok b
  | none =>
    Except.error ("No builder found for registry \"" ++ registryName ++ "\". " ++
      "Available builders: " ++ joinSep ", " (builders.map (fun b => b.ctorName)))

/-- Embedding of `toRegistryUrl` (shared.ts). -/
def toRegistryUrl (name registryBaseUrl : String) : String :=
  registryBaseUrl ++ "/" ++ name ++ ".json"

/-- Per-entry rewrite performed by `generateRegistry` on
`registryDependencies` (build script): URLs pass through, internally-known
names become registry URLs, everything else passes through.  The pass-1
`Set` of known names is modelled as a list queried with `contains`. -/
def linkDependency (ourRegistryNames : List String) (registryUrl dep : String) :
    String :=
  if jsStartsWith dep "http://" || jsStartsWith dep "https://" then dep
  else if ourRegistryNames.contains dep then toRegistryUrl dep registryUrl
  else dep

/-- The `config.registryDependencies.map(...)` call of `generateRegistry`. -/
def linkRegistryDependencies (ourRegistryNames : List String)
    (registryUrl : String) (deps : List String) : List String :=
  deps.map (linkDependency ourRegistryNames registryUrl)

/-- The auth builder as `BaseInfraBuilder` instantiates it: feature name
`"auth"` with the inherited default table. -/
def authBuilder : BaseInfraBuilder :=
  BaseInfraBuilder.mk "auth" defaultTargetMappings

/-- Embedding of `ViteBuilder.canHandle` (vite.ts): an explicitly declared
framework capability list is authoritative (`includes("vite")`), otherwise
the `"-vite-"` naming convention decides. -/
def viteCanHandle (registryName : String) (config : Option ConfigJson) : Bool :=
  match config with
  | some c =>
    match c.capabilities with
    | some caps =>
      match caps.framework with
      | some fws => fws.contains "vite"
      | none => jsIncludes registryName "-vite-"
    | none => jsIncludes registryName "-vite-"
  | none => jsIncludes registryName "-vite-"

/-- Embedding of `AuthBuilder.canHandle` (auth.ts). -/
def authCanHandle (registryName : String) (_config : Option ConfigJson) : Bool :=
  jsStartsWith registryName "auth-" || registryName == "auth"

/-- The Vite builder as `getBuilder` sees it. -/
def viteBuilderReg : InfraBuilder := InfraBuilder.mk "ViteBuilder" viteCanHandle

/-- The auth builder as `getBuilder` sees it. -/
def authBuilderReg : InfraBuilder := InfraBuilder.mk "AuthBuilder" authCanHandle

/-- A descriptor declaring the `tanstack-start` framework capability, with
all required fields present. -/
def tanstackConfig : ConfigJson :=
  ConfigJson.mk (some "auth-tanstack") (some "registry:lib") (some "Auth")
    (some "Desc") none none none
    (some (Capabilities.mk none (some ["tanstack-start"]))) none none

/-- A descriptor missing `title` and `description`. -/
def incompleteConfig : ConfigJson :=
  ConfigJson.mk (some "x") (some "registry:lib") none none none none none
    none none none

/-- A complete minimal descriptor without capabilities. -/
def minimalConfig : ConfigJson :=
  ConfigJson.mk (some "auth-otp") (some "registry:lib") (some "T") (some "D")
    none none none none none none

/-- A descriptor carrying a `targetMappings` override table for `vite` that
has no `"*"` catch-all entry. -/
def viteOverrideConfig : ConfigJson :=
  ConfigJson.mk (some "auth-vite") (some "registry:lib") (some "T") (some "D")
    none none none (some (Capabilities.mk none (some ["vite"]))) none
    (some [("vite", [("api/*", "app/api/*")])])

/-- A descriptor-supplied override table containing the pattern `"[*"`.
Its dot-escaped, star-expanded regex source is `^[.*$`, whose character
class is never closed, so `new RegExp` throws a `SyntaxError` out of
`getTargetPath` in the source. -/
def bracketOverrideConfig : ConfigJson :=
  ConfigJson.mk (some "auth-bad") (some "registry:lib") (some "T") (some "D")
    none none none none none (some [("nextjs", [("[*", "x/*")])])

/-- Compilation step of the regex branch of `matchesPattern`
(base-builder.ts): `pattern.replace(/\./g, "\\.").replace(/\*/g, ".*")`.
Only dots are escaped; every other character of the pattern reaches the
`new RegExp` source verbatim. -/
def escapeDotsExpandStars (pattern : String) : String :=
  jsReplaceAll (jsReplaceAll pattern "." "\\.") "*" ".*"

/-- Character-wise effect of `escapeDotsExpandStars` (proved equal to it in
`escapeDotsExpandStars_eq`): `.` becomes the escape `\.`, `*` becomes
`.*`, everything else is copied. -/
def expandChar (c : Char) : List Char :=
  if c = '.' then ['\\', '.'] else if c = '*' then ['.', '*'] else [c]

/-- Syntactic validity of a JS regular-expression source string (flagless
`new RegExp`), deciding whether compilation throws a `SyntaxError`.  The
scanner tracks whether it is inside a character class, a quantifier state
`q` (`0`: no quantifier may attach, `1`: an atom was just read, `2`: a
quantifier was just read, so only a lazy `?` may follow) and the group
nesting depth.  It is faithful on the errors the pipeline can hit —
unterminated classes and groups, unmatched `)`, nothing-to-repeat
quantifiers, trailing backslash — and deliberately lenient where JS
(Annex B) is lenient or where no spec pattern can reach: braces are
literals, class bodies are not range-checked, `(?` group heads are not
distinguished, anchors count as quantifiable atoms. -/
def regexSourceValidAux (q depth : Nat) : Bool → List Char → Bool
  | true, [] => false
  | true, c :: rest =>
    if c = '\\' then
      match rest with
      | [] => false
      | _ :: rest2 => regexSourceValidAux q depth true rest2
    else if c = ']' then regexSourceValidAux 1 depth false rest
    else regexSourceValidAux q depth true rest
  | false, [] => decide (depth = 0)
  | false, c :: rest =>
    if c = '\\' then
      match rest with
      | [] => false
      | _ :: rest2 => regexSourceValidAux 1 depth false rest2
    else if c = '[' then regexSourceValidAux 0 depth true rest
    else if c = '(' then regexSourceValidAux 0 (depth + 1) false rest
    else if c = ')' then
      decide (0 < depth) && regexSourceValidAux 1 (depth - 1) false rest
    else if c = '*' ∨ c = '+' then
      decide (q = 1) && regexSourceValidAux 2 depth false rest
    else if c = '?' then
      decide (q = 1 ∨ q = 2) &&
        regexSourceValidAux (if q = 2 then 0 else 2) depth false rest
    else if c = '|' then regexSourceValidAux 0 depth false rest
    else regexSourceValidAux 1 depth false rest

/-- Validity of a whole regex source (see `regexSourceValidAux`). -/
def regexSourceValid (source : List Char) : Bool :=
  regexSourceValidAux 0 0 false source

/-- Characters with no JS-regex metacharacter meaning after
`escapeDotsExpandStars` has run: everything except `\ ( ) [ ] { } + ? | ^ $`
(`.` is escaped by the compilation step and `*` becomes the `.*`
wildcard, so both are safe).  The spec's §4.1 pattern language only uses
safe characters. -/
def regexSafeChar (c : Char) : Bool :=
  !(c = '\\' || c = '(' || c = ')' || c = '[' || c = ']' || c = '{' ||
    c = '}' || c = '+' || c = '?' || c = '|' || c = '^' || c = '$')

/-- Patterns built from safe characters only; for these the compiled regex
source is always valid (`regexSourceValid_of_safe`). -/
def safePattern (pattern : String) : Bool :=
  pattern.data.all regexSafeChar

/-- Refinement of `matchesPattern` that also models the `SyntaxError` path
of the source: the regex branch first compiles
`new RegExp("^" + escaped + "$")`, which throws when the source is
invalid, and only then tests the path.  The boolean test of a valid
regex is modelled by `globMatch` as in `matchesPattern` (exact on
metacharacter-free patterns); the other branches of the source cannot
throw. -/
def matchesPatternE (path pattern : String) : Except String Bool :=
  let normalizedPath := jsReplaceAll path "\\" "/"
  if normalizedPath == pattern then Except.ok true
  else if jsEndsWith pattern "/*" then
    Except.ok
      (jsStartsWith normalizedPath (String.mk pattern.data.dropLast.dropLast ++ "/"))
  else if jsIncludes pattern "*" then
    let regexPattern := escapeDotsExpandStars pattern
    if regexSourceValid ('^' :: regexPattern.data ++ ['$']) then
      Except.ok (globMatch pattern.data normalizedPath.data)
    else Except.error "SyntaxError: Invalid regular expression"
  else if pattern == "*" then Except.ok true
  else Except.ok false

/-- Pattern-matching loop of `getTargetPath` over the fallible matcher: a
`SyntaxError` thrown by `matchesPattern` for some table entry propagates
out of the loop. -/
def resolveMappingsE (relativePath featureName : String) :
    List (String × String) → Except String String
  | [] => Except.ok ("lib/server/" ++ featureName ++ "/" ++ relativePath)
  | (pattern, target) :: rest =>
    match matchesPatternE relativePath pattern with
    | Except.error e => Except.error e
    | Except.ok true =>
      Except.ok (applyMapping relativePath pattern target featureName)
    | Except.ok false => resolveMappingsE relativePath featureName rest

/-- Embedding of `BaseInfraBuilder.getTargetPath` including its throwing
path (see `matchesPatternE`). -/
def getTargetPathE (b : BaseInfraBuilder)
    (filePath sourceDir _registryName : String)
    (config : Option ConfigJson) : Except String String :=
  resolveMappingsE (relativeTo sourceDir filePath) b.featureName
    (effectiveMappings b config)

/-! ## Helper lemmas -/

theorem configField_name (c : ConfigJson) : configField c "name" = c.name := rfl

theorem configField_type (c : ConfigJson) : configField c "type" = c.type := rfl

theorem configField_title (c : ConfigJson) : configField c "title" = c.title := rfl

theorem configField_description (c : ConfigJson) :
    configField c "description" = c.description := rfl

theorem replaceAllLAux_single (a : Char) (repl : List Char) :
    ∀ (l : List Char) (fuel : Nat), l.length ≤ fuel →
      replaceAllLAux [a] repl fuel l =
        l.flatMap (fun c => if c = a then repl else [c]) := by
  intro l
  induction l with
  | nil => intro fuel h; cases fuel <;> rfl
  | cons c cs ih =>
    intro fuel h
    match fuel with
    | 0 => exact absurd h (by simp)
    | f + 1 =>
      have hf : cs.length ≤ f := Nat.le_of_succ_le_succ h
      by_cases hca : a = c
      · subst hca
        simp [replaceAllLAux, List.isPrefixOf, ih f hf]
      · have hca2 : ¬(c = a) := fun hx => hca hx.symm
        simp [replaceAllLAux, List.isPrefixOf, hca, hca2, ih f hf]

theorem flatMap_expandChar (l : List Char) :
    ((l.flatMap (fun c => if c = '.' then ['\\', '.'] else [c])).flatMap
        (fun c => if c = '*' then ['.', '*'] else [c])) =
      l.flatMap expandChar := by
  induction l with
  | nil => rfl
  | cons c cs ih =>
    by_cases h1 : c = '.'
    · subst h1
      simp [expandChar, ih]
    · by_cases h2 : c = '*'
      · subst h2
        simp [expandChar, ih]
      · simp [expandChar, h1, h2, ih]

theorem escapeDotsExpandStars_eq (pattern : String) :
    (escapeDotsExpandStars pattern).data = pattern.data.flatMap expandChar := by
  unfold escapeDotsExpandStars jsReplaceAll
  rw [show ("." : String).data = ['.'] from rfl,
    show ("\\." : String).data = ['\\', '.'] from rfl,
    show ("*" : String).data = ['*'] from rfl,
    show (".*" : String).data = ['.', '*'] from rfl,
    show (String.mk (replaceAllLAux ['.'] ['\\', '.'] pattern.data.length
      pattern.data)).data =
      replaceAllLAux ['.'] ['\\', '.'] pattern.data.length pattern.data from rfl]
  rw [replaceAllLAux_single '.' ['\\', '.'] pattern.data pattern.data.length
    (Nat.le_refl _)]
  rw [replaceAllLAux_single '*' ['.', '*'] _ _ (Nat.le_refl _)]
  exact flatMap_expandChar pattern.data

theorem safeChar_ne (c x : Char) (hc : regexSafeChar c = true)
    (hx : regexSafeChar x = false) : ¬(c = x) := by
  intro he
  subst he
  rw [hc] at hx
  exact Bool.noConfusion hx

theorem regexScan_safe_body :
    ∀ (l : List Char), (∀ c ∈ l, regexSafeChar c = true) →
      ∀ (q depth : Nat) (tail : List Char), ∃ q2 : Nat,
        regexSourceValidAux q depth false (l.flatMap expandChar ++ tail) =
          regexSourceValidAux q2 depth false tail := by
  intro l
  induction l with
  | nil => intro h q depth tail; exact ⟨q, rfl⟩
  | cons c cs ih =>
    intro h q depth tail
    have hc := h c (List.mem_cons_self _ _)
    have hcs := fun x hx => h x (List.mem_cons_of_mem _ hx)
    by_cases h1 : c = '.'
    · subst h1
      have hl : (('.' :: cs).flatMap expandChar ++ tail) =
          '\\' :: '.' :: (cs.flatMap expandChar ++ tail) := by
        simp [expandChar]
      rw [hl]
      have hstep : regexSourceValidAux q depth false
          ('\\' :: '.' :: (cs.flatMap expandChar ++ tail)) =
          regexSourceValidAux 1 depth false (cs.flatMap expandChar ++ tail) := rfl
      rw [hstep]
      exact ih hcs 1 depth tail
    · by_cases h2 : c = '*'
      · subst h2
        have hl : (('*' :: cs).flatMap expandChar ++ tail) =
            '.' :: '*' :: (cs.flatMap expandChar ++ tail) := by
          simp [expandChar]
        rw [hl]
        have hstep1 : regexSourceValidAux q depth false
            ('.' :: '*' :: (cs.flatMap expandChar ++ tail)) =
            regexSourceValidAux 1 depth false
              ('*' :: (cs.flatMap expandChar ++ tail)) := by
          rw [regexSourceValidAux.eq_def]
          simp
        have hstep2 : regexSourceValidAux 1 depth false
            ('*' :: (cs.flatMap expandChar ++ tail)) =
            regexSourceValidAux 2 depth false (cs.flatMap expandChar ++ tail) := by
          rw [regexSourceValidAux.eq_def]
          simp
        rw [hstep1, hstep2]
        exact ih hcs 2 depth tail
      · have hl : ((c :: cs).flatMap expandChar ++ tail) =
            c :: (cs.flatMap expandChar ++ tail) := by
          simp [expandChar, h1, h2]
        rw [hl]
        have h_bs := safeChar_ne c '\\' hc (by decide)
        have h_lb := safeChar_ne c '[' hc (by decide)
        have h_lp := safeChar_ne c '(' hc (by decide)
        have h_rp := safeChar_ne c ')' hc (by decide)
        have h_pl := safeChar_ne c '+' hc (by decide)
        have h_qm := safeChar_ne c '?' hc (by decide)
        have h_pi := safeChar_ne c '|' hc (by decide)
        have h_sp : ¬(c = '*' ∨ c = '+') := fun hor => hor.elim h2 h_pl
        have hstep : regexSourceValidAux q depth false
            (c :: (cs.flatMap expandChar ++ tail)) =
            regexSourceValidAux 1 depth false (cs.flatMap expandChar ++ tail) := by
          rw [regexSourceValidAux.eq_def]
          simp [h_bs, h_lb, h_lp, h_rp, h2, h_pl, h_qm, h_pi]
        rw [hstep]
        exact ih hcs 1 depth tail

theorem regexSourceValid_of_safe (pattern : String)
    (h : safePattern pattern = true) :
    regexSourceValid ('^' :: (escapeDotsExpandStars pattern).data ++ ['$']) =
      true := by
  have hsafe : ∀ c ∈ pattern.data, regexSafeChar c = true := by
    simpa [safePattern, List.all_eq_true] using h
  rw [escapeDotsExpandStars_eq]
  unfold regexSourceValid
  rw [show ('^' :: pattern.data.flatMap expandChar ++ ['$']) =
    '^' :: (pattern.data.flatMap expandChar ++ ['$']) from rfl]
  have hcaret : regexSourceValidAux 0 0 false
      ('^' :: (pattern.data.flatMap expandChar ++ ['$'])) =
      regexSourceValidAux 1 0 false (pattern.data.flatMap expandChar ++ ['$']) := by
    rw [regexSourceValidAux.eq_def]
    simp
  rw [hcaret]
  obtain ⟨q2, hq⟩ := regexScan_safe_body pattern.data hsafe 1 0 ['$']
  rw [hq]
  have hdollar : regexSourceValidAux q2 0 false ['$'] =
      regexSourceValidAux 1 0 false [] := by
    rw [regexSourceValidAux.eq_def]
    simp
  rw [hdollar]
  rfl

theorem matchesPatternE_of_safe (path pattern : String)
    (h : safePattern pattern = true) :
    matchesPatternE path pattern = Except.ok (matchesPattern path pattern) := by
  by_cases h1 : ((jsReplaceAll path "\\" "/") == pattern) = true
  · simp [matchesPatternE, matchesPattern, h1]
  · by_cases h2 : jsEndsWith pattern "/*" = true
    · simp [matchesPatternE, matchesPattern, h1, h2]
    · by_cases h3 : jsIncludes pattern "*" = true
      · have hv := regexSourceValid_of_safe pattern h
        simp [matchesPatternE, matchesPattern, h1, h2, h3]
        simpa using hv
      · by_cases h4 : (pattern == "*") = true <;>
          simp [matchesPatternE, matchesPattern, h1, h2, h3, h4]

theorem resolveMappingsE_of_safe (rel feat : String) :
    ∀ table : List (String × String),
      (∀ e ∈ table, safePattern e.1 = true) →
      resolveMappingsE rel feat table =
        Except.ok (resolveMappings rel feat table) := by
  intro table
  induction table with
  | nil => intro h; rfl
  | cons e rest ih =>
    intro h
    obtain ⟨pa, ta⟩ := e
    have hpa : safePattern pa = true := h (pa, ta) (List.mem_cons_self _ _)
    have hrest := fun x hx => h x (List.mem_cons_of_mem _ hx)
    have hm := matchesPatternE_of_safe rel pa hpa
    cases hmp : matchesPattern rel pa with
    | true => simp [resolveMappingsE, resolveMappings, hm, hmp]
    | false => simp [resolveMappingsE, resolveMappings, hm, hmp, ih hrest]

theorem resolveMappings_append_first (rel feat : String)
    (pre : List (String × String)) (p t : String) (post : List (String × String))
    (hpre : ∀ e ∈ pre, matchesPattern rel e.1 = false)
    (hp : matchesPattern rel p = true) :
    resolveMappings rel feat (pre ++ (p, t) :: post) = applyMapping rel p t feat := by
  induction pre with
  | nil => simp [resolveMappings, hp]
  | cons e rest ih =>
    obtain ⟨pa, ta⟩ := e
    have he : matchesPattern rel pa = false :=
      hpre (pa, ta) (List.mem_cons_self _ _)
    simp only [List.cons_append, resolveMappings, he, Bool.false_eq_true,
      if_false]
    exact ih fun x hx => hpre x (List.mem_cons_of_mem _ hx)

theorem resolveMappings_no_match (rel feat : String)
    (table : List (String × String))
    (h : ∀ e ∈ table, matchesPattern rel e.1 = false) :
    resolveMappings rel feat table = "lib/server/" ++ feat ++ "/" ++ rel := by
  induction table with
  | nil => rfl
  | cons e rest ih =>
    obtain ⟨pa, ta⟩ := e
    have he : matchesPattern rel pa = false :=
      h (pa, ta) (List.mem_cons_self _ _)
    simp only [resolveMappings, he, Bool.false_eq_true, if_false]
    exact ih fun x hx => h x (List.mem_cons_of_mem _ hx)

/-! ## Claim theorems -/

/-- C1: the spec demands that pattern `"components/*"` with template
`"components/*.tsx"` and source file `"components/Form.ts"` resolve to
`"components/Form.tsx"`.  The code does not do this: its prefix-wildcard
branch substitutes the matched suffix into the template's `*` first, so the
later extension-rewrite branch finds no `*` left and the result is
`"components/Form.ts.tsx"`, contradicting the inline comments of
`applyMapping` that announce a basename-plus-target-extension rewrite. -/
theorem C1_extension_rewrite_failing_input :
    matchesPattern "components/Form.ts" "components/*" = true ∧
    applyMapping "components/Form.ts" "components/*" "components/*.tsx" "auth" =
      "components/Form.ts.tsx" ∧
    applyMapping "components/Form.ts" "components/*" "components/*.tsx" "auth" ≠
      "components/Form.tsx" := by
  refine ⟨rfl, rfl, ?_⟩
  decide

/-- C2: the claim reads the valid framework enumeration as
`{nextjs, vite, tanstack-start, remix, astro, *}`, which is the
`FrameworkType` union of shared.ts, but the `validFrameworks` array inside
`validateConfig` omits `"tanstack-start"`, so a descriptor declaring that
(type-correct, builder-supported) capability is rejected. -/
theorem C2_validateConfig_rejects_tanstack_start :
    validateConfig tanstackConfig "config.json" =
      Except.error
        (ValidationError.invalidFrameworks "config.json" ["tanstack-start"]) ∧
    frameworkTypeValues.contains "tanstack-start" = true ∧
    validFrameworks.contains "tanstack-start" = false :=
  ⟨rfl, rfl, rfl⟩

/-- C3: for every mapping table and every path matching at least one table
entry, `getTargetPath` resolves through the first entry in declaration
order whose pattern matches — the table entries before the winner all fail
to match, and the result is `applyMapping` of the winning entry, whatever
comes after it. -/
theorem C3_first_match_wins (filePath sourceDir registryName feat : String)
    (pre : List (String × String)) (p t : String) (post : List (String × String))
    (hpre : ∀ e ∈ pre, matchesPattern (relativeTo sourceDir filePath) e.1 = false)
    (hp : matchesPattern (relativeTo sourceDir filePath) p = true) :
    getTargetPath (BaseInfraBuilder.mk feat (pre ++ (p, t) :: post)) filePath
      sourceDir registryName none =
      applyMapping (relativeTo sourceDir filePath) p t feat :=
  resolveMappings_append_first _ _ _ _ _ _ hpre hp

/-- C3 witness: for the table `[("api/*", "A/*"), ("*", "B/*")]` and the
path `api/x.ts`, the declaration-order first match (the `A` rule) wins even
though the later catch-all also matches. -/
theorem C3_first_match_wins_witness :
    getTargetPath (BaseInfraBuilder.mk "auth" [("api/*", "A/*"), ("*", "B/*")])
      "src/api/x.ts" "src" "auth" none = "A/x.ts" := by
  have h := C3_first_match_wins "src/api/x.ts" "src" "auth" "auth" [] "api/*"
    "A/*" [("*", "B/*")] (fun e he => absurd he (List.not_mem_nil e)) rfl
  exact h.trans rfl

/-- C5: with the default mapping table and builder feature name `"auth"`,
the four end-to-end example paths resolve as the spec requires. -/
theorem C5_default_table_end_to_end :
    getTargetPath authBuilder "infra/auth/api/login.ts" "infra/auth" "auth"
      none = "app/api/login.ts" ∧
    getTargetPath authBuilder "infra/auth/components/form.tsx" "infra/auth"
      "auth" none = "components/form.tsx" ∧
    getTargetPath authBuilder "infra/auth/server/session.ts" "infra/auth"
      "auth" none = "lib/server/auth/session.ts" ∧
    getTargetPath authBuilder "infra/auth/db.ts" "infra/auth" "auth" none =
      "lib/server/db.ts" :=
  ⟨rfl, rfl, rfl, rfl⟩

/-- C9: the embedded-wildcard pass-through branch of `applyMapping` fires
for every pattern that contains `*` but does not end in `"/*"` — the bare
catch-all `"*"` included — whenever the target template also contains `*`,
and then the original relative path is returned unchanged. -/
theorem C9_embedded_wildcard_passthrough
    (sourcePath pattern target featureName : String)
    (h1 : jsIncludes pattern "*" = true)
    (h2 : jsEndsWith pattern "/*" = false)
    (h3 : jsIncludes target "*" = true) :
    applyMapping sourcePath pattern target featureName = sourcePath := by
  unfold applyMapping
  simp [h1, h2, h3]

/-- C9 witness: `types.ts` falls through to the default catch-all entry
`("*", "lib/server/{feature}/*")` and resolves to itself, not to
`lib/server/auth/types.ts`. -/
theorem C9_embedded_wildcard_passthrough_witness :
    applyMapping "types.ts" "*" "lib/server/{feature}/*" "auth" = "types.ts" ∧
    resolveMappings "types.ts" "auth" defaultTargetMappings = "types.ts" :=
  ⟨C9_embedded_wildcard_passthrough "types.ts" "*" "lib/server/{feature}/*"
      "auth" rfl rfl rfl,
    rfl⟩

/-- C10 counterexample: target resolution is not total.  A
descriptor-supplied override table containing the pattern `"[*"` makes
`getTargetPath` throw: the pattern reaches the embedded-wildcard branch,
its compiled regex source `^[.*$` has an unterminated character class, and
`new RegExp` raises a `SyntaxError` that propagates out of
`getTargetPath`. -/
theorem C10_target_resolution_not_total :
    getTargetPathE authBuilder "infra/a/zzz.ts" "infra/a" "auth-bad"
        (some bracketOverrideConfig) =
      Except.error "SyntaxError: Invalid regular expression" ∧
    regexSourceValid ('^' :: (escapeDotsExpandStars "[*").data ++ ['$']) =
      false :=
  ⟨rfl, rfl⟩

/-- C10 (amended): for every file path, source directory, feature name and
mapping table — descriptor-supplied override tables without a `"*"` entry
included — whose patterns stay inside the pattern language (no regex
metacharacter beyond the escaped `.` and the `*` wildcard, so that the
compiled regex of every entry is valid), `getTargetPath` never throws: it
returns the string the total model computes, and when no table entry
matches the relative path it returns the
`lib/server/{featureName}/{relativePath}` fallback. -/
theorem C10_fallback_total_amended (b : BaseInfraBuilder)
    (filePath sourceDir registryName : String) (config : Option ConfigJson)
    (hsafe : ∀ e ∈ effectiveMappings b config, safePattern e.1 = true) :
    getTargetPathE b filePath sourceDir registryName config =
      Except.ok (getTargetPath b filePath sourceDir registryName config) ∧
    ((∀ e ∈ effectiveMappings b config,
        matchesPattern (relativeTo sourceDir filePath) e.1 = false) →
      getTargetPathE b filePath sourceDir registryName config =
        Except.ok ("lib/server/" ++ b.featureName ++ "/" ++
          relativeTo sourceDir filePath)) := by
  have h1 : getTargetPathE b filePath sourceDir registryName config =
      Except.ok (getTargetPath b filePath sourceDir registryName config) :=
    resolveMappingsE_of_safe (relativeTo sourceDir filePath) b.featureName
      (effectiveMappings b config) hsafe
  refine ⟨h1, fun hnm => ?_⟩
  rw [h1]
  have h2 := resolveMappings_no_match (relativeTo sourceDir filePath)
    b.featureName (effectiveMappings b config) hnm
  rw [show getTargetPath b filePath sourceDir registryName config =
    resolveMappings (relativeTo sourceDir filePath) b.featureName
      (effectiveMappings b config) from rfl, h2]

/-- C10 witness: a descriptor-supplied `vite` override table without a
`"*"` entry has only safe patterns, matches nothing for `zzz.ts`, and the
run does not throw: it returns the `lib/server/auth/zzz.ts` fallback. -/
theorem C10_fallback_total_amended_witness :
    getTargetPathE authBuilder "infra/a/zzz.ts" "infra/a" "auth-vite"
      (some viteOverrideConfig) = Except.ok "lib/server/auth/zzz.ts" := by
  have htbl : effectiveMappings authBuilder (some viteOverrideConfig) =
      [("api/*", "app/api/*")] := rfl
  have hsafe : ∀ e ∈ effectiveMappings authBuilder (some viteOverrideConfig),
      safePattern e.1 = true := by
    intro e he
    rw [htbl, List.mem_singleton] at he
    subst he
    rfl
  have hnm : ∀ e ∈ effectiveMappings authBuilder (some viteOverrideConfig),
      matchesPattern (relativeTo "infra/a" "infra/a/zzz.ts") e.1 = false := by
    intro e he
    rw [htbl, List.mem_singleton] at he
    subst he
    rfl
  have h := (C10_fallback_total_amended authBuilder "infra/a/zzz.ts" "infra/a"
    "auth-vite" (some viteOverrideConfig) hsafe).2 hnm
  exact h.trans rfl

/-- C4: the registry-dependency rewrite preserves the length and order of
`registryDependencies`, each entry passing through unchanged when it is an
absolute URL (`http://`/`https://`) or unknown, and becoming
`{baseUrl}/{name}.json` when it is an internally-known name; the spec's
concrete example behaves as required. -/
theorem C4_dependency_linking (names : List String) (url : String)
    (deps : List String) :
    (linkRegistryDependencies names url deps).length = deps.length ∧
    (∀ i : Nat, i < deps.length →
      (linkRegistryDependencies names url deps).getD i "" =
        (let d := deps.getD i ""
         if jsStartsWith d "http://" || jsStartsWith d "https://" then d
         else if names.contains d then url ++ "/" ++ d ++ ".json"
         else d)) ∧
    linkRegistryDependencies ["auth-otp-shared"] "https://r.example"
        ["auth-otp-shared", "https://x/y.json", "external-widget"] =
      ["https://r.example/auth-otp-shared.json", "https://x/y.json",
        "external-widget"] := by
  refine ⟨List.length_map _ _, ?_, rfl⟩
  intro i hi
  induction deps generalizing i with
  | nil => exact absurd hi (Nat.not_lt_zero i)
  | cons d ds ih =>
    cases i with
    | zero =>
      simp [linkRegistryDependencies, linkDependency, toRegistryUrl]
    | succ j =>
      have hj : j < ds.length := Nat.lt_of_succ_lt_succ hi
      simpa [linkRegistryDependencies, List.getD_cons_succ] using ih j hj

/-- C4 witness: instance of the elementwise characterization at index 0 of
the spec's concrete example. -/
theorem C4_dependency_linking_witness :
    0 < (["auth-otp-shared", "https://x/y.json", "external-widget"] :
        List String).length ∧
    (linkRegistryDependencies ["auth-otp-shared"] "https://r.example"
        ["auth-otp-shared", "https://x/y.json", "external-widget"]).getD 0 "" =
      "https://r.example/auth-otp-shared.json" := by
  refine ⟨by decide, ?_⟩
  rw [(C4_dependency_linking ["auth-otp-shared"] "https://r.example"
    ["auth-otp-shared", "https://x/y.json", "external-widget"]).2.1 0
    (by decide)]
  rfl

/-- C6: `validateConfig` aggregates every missing required field into one
error: whenever the missing-field list is non-empty the single raised error
carries exactly that list, and in particular a descriptor with `name` and
`type` present but `title` and `description` missing raises one error
naming both. -/
theorem C6_missing_fields_aggregated (c : ConfigJson) (path : String) :
    (missingRequired c ≠ [] →
      validateConfig c path =
        Except.error (ValidationError.missingFields path (missingRequired c))) ∧
    (truthyStr c.name = true → truthyStr c.type = true →
      truthyStr c.title = false → truthyStr c.description = false →
      validateConfig c path =
        Except.error
          (ValidationError.missingFields path ["title", "description"])) := by
  have hgen : missingRequired c ≠ [] →
      validateConfig c path =
        Except.error (ValidationError.missingFields path (missingRequired c)) := by
    intro h
    have hlen : 0 < (missingRequired c).length := List.length_pos.mpr h
    unfold validateConfig
    simp [hlen]
  refine ⟨hgen, ?_⟩
  intro hn ht hti hd
  have hmiss : missingRequired c = ["title", "description"] := by
    unfold missingRequired requiredFields
    simp [List.filter, configField_name, configField_type, configField_title,
      configField_description, hn, ht, hti, hd]
  rw [hgen (by rw [hmiss]; exact List.cons_ne_nil _ _), hmiss]

/-- C6 witness: a concrete descriptor missing `title` and `description`
raises the single aggregated error naming both. -/
theorem C6_missing_fields_aggregated_witness :
    validateConfig incompleteConfig "p" =
      Except.error
        (ValidationError.missingFields "p" (missingRequired incompleteConfig)) ∧
    validateConfig incompleteConfig "p" =
      Except.error (ValidationError.missingFields "p" ["title", "description"]) :=
  ⟨(C6_missing_fields_aggregated incompleteConfig "p").1 (by decide),
    (C6_missing_fields_aggregated incompleteConfig "p").2 rfl rfl rfl rfl⟩

/-- C7: `getBuilder` returns the first registered builder whose `canHandle`
accepts the descriptor, and when no builder accepts it the thrown error
message lists the class names of all registered builders. -/
theorem C7_getBuilder_first_and_error (registryName : String)
    (config : ConfigJson) :
    (∀ (pre : List InfraBuilder) (b : InfraBuilder) (post : List InfraBuilder),
      (∀ x ∈ pre, x.canHandle registryName (some config) = false) →
      b.canHandle registryName (some config) = true →
      getBuilder registryName config (pre ++ b :: post) = Except.ok b) ∧
    (∀ builders : List InfraBuilder,
      (∀ x ∈ builders, x.canHandle registryName (some config) = false) →
      getBuilder registryName config builders =
        Except.error ("No builder found for registry \"" ++ registryName ++
          "\". " ++ "Available builders: " ++
          joinSep ", " (builders.map (fun b => b.ctorName)))) := by
  constructor
  · intro pre b post hpre hb
    have hfind : (pre ++ b :: post).find?
        (fun x => x.canHandle registryName (some config)) = some b := by
      induction pre with
      | nil => simp [List.find?_cons, hb]
      | cons y rest ih =>
        have hy := hpre y (List.mem_cons_self _ _)
        rw [List.cons_append, List.find?_cons_of_neg _ (by simp [hy])]
        exact ih fun x hx => hpre x (List.mem_cons_of_mem _ hx)
    simp [getBuilder, hfind]
  · intro builders hall
    have hfind : builders.find?
        (fun x => x.canHandle registryName (some config)) = none :=
      List.find?_eq_none.mpr fun x hx => by simp [hall x hx]
    simp [getBuilder, hfind]

/-- C7 witness: with the Vite and auth builders registered in that order,
`auth-otp` is handled by the auth builder (the Vite builder declines), and
an unmatched name raises the error listing both builder names. -/
theorem C7_getBuilder_first_and_error_witness :
    getBuilder "auth-otp" minimalConfig [viteBuilderReg, authBuilderReg] =
      Except.ok authBuilderReg ∧
    getBuilder "unknown-thing" minimalConfig [viteBuilderReg, authBuilderReg] =
      Except.error
        "No builder found for registry \"unknown-thing\". Available builders: ViteBuilder, AuthBuilder" := by
  constructor
  · exact (C7_getBuilder_first_and_error "auth-otp" minimalConfig).1
      [viteBuilderReg] authBuilderReg []
      (fun x hx => by rw [List.mem_singleton] at hx; subst hx; rfl) rfl
  · have h := (C7_getBuilder_first_and_error "unknown-thing" minimalConfig).2
      [viteBuilderReg, authBuilderReg]
      (fun x hx => by
        simp only [List.mem_cons, List.not_mem_nil, or_false] at hx
        rcases hx with rfl | rfl <;> rfl)
    exact h.trans rfl

/-- C8: the manifest role of a file is `registry:block` exactly when its
relative path starts with `components/` or `emails/`, `registry:page`
exactly when it does not but starts with `app/`, and `registry:lib` in
every remaining case. -/
theorem C8_getFileType_classification (filePath sourceDir : String) :
    (getFileType filePath sourceDir = "registry:block" ↔
      (jsStartsWith (relativeTo sourceDir filePath) "components/" ||
        jsStartsWith (relativeTo sourceDir filePath) "emails/") = true) ∧
    (getFileType filePath sourceDir = "registry:page" ↔
      ((jsStartsWith (relativeTo sourceDir filePath) "components/" ||
          jsStartsWith (relativeTo sourceDir filePath) "emails/") = false ∧
        jsStartsWith (relativeTo sourceDir filePath) "app/" = true)) ∧
    (getFileType filePath sourceDir = "registry:lib" ↔
      ((jsStartsWith (relativeTo sourceDir filePath) "components/" ||
          jsStartsWith (relativeTo sourceDir filePath) "emails/") = false ∧
        jsStartsWith (relativeTo sourceDir filePath) "app/" = false)) := by
  unfold getFileType
  cases h1 : (jsStartsWith (relativeTo sourceDir filePath) "components/" ||
      jsStartsWith (relativeTo sourceDir filePath) "emails/") <;>
    cases h2 : jsStartsWith (relativeTo sourceDir filePath) "app/" <;>
      simp [h1, h2]

end Initcn
